import Mathlib

/-!
Verification development for the shell-plugin frontend binding
(src/dist-js/index.mjs).  The file embeds, as executable Lean
definitions, the parts of the source the claims are about:

* the `EventEmitter` class (a registry object mapping event names to
  arrays of listener functions, with `on`, `once`, `off`,
  `removeAllListeners`, `listenerCount` and `emit`);
* the `Command` session: the `spawn` callback that demultiplexes tagged
  events into the stdout/stderr emitters and the session itself, and
  `execute`, which buffers stream chunks and settles a promise on the
  first terminal event, aggregating output with `collectOutput`;
* the internal `execute` helper that freezes the arguments array before
  sending the spawn request.

Listener functions are modelled as first-order tokens (the numeric ids
model JS object identity of the closures); their behaviour is given by a
fuel-bounded interpreter that mirrors the JS dispatch exactly: `emit`
reads the current array object and the `for...of` loop keeps iterating
that same object, while `off` installs a freshly filtered array (so an
emit that is already running keeps walking its stale snapshot), and
`removeAllListeners` deletes the key.
-/

namespace ShellPlugin

/-- A listener stored in an emitter registry.  `plain id` is an ordinary
caller-supplied function (the id models the function object identity);
`wrapper wid fnId` is the fresh closure allocated by `once` around the
underlying function `fnId` (index.mjs lines 81-85); `reemitter id` is a
harness listener that logs its id and, guarded by a once-only flag,
synchronously re-enters `emit` for the same event name. -/
inductive Listener where
  | plain (id : Nat)
  | wrapper (wid : Nat) (fnId : Nat)
  | reemitter (id : Nat)
deriving DecidableEq, Repr

/-- The `eventListeners` registry: a mapping (object with null prototype)
from event name to the ordered array of listeners.  Keys are unique. -/
abbrev Registry := List (String × List Listener)

/-- Property lookup `name in obj` / `obj[name]` on the registry. -/
def lookupReg : Registry → String → Option (List Listener)
  | [], _ => none
  | (k, v) :: rest, name => if k = name then some v else lookupReg rest name

/-- Property assignment `obj[name] = ls` on the registry. -/
def setReg : Registry → String → List Listener → Registry
  | [], name, ls => [(name, ls)]
  | (k, v) :: rest, name, ls =>
      if k = name then (k, ls) :: rest else (k, v) :: setReg rest name ls

/-- Property deletion `delete obj[name]` on the registry. -/
def eraseReg : Registry → String → Registry
  | [], _ => []
  | (k, v) :: rest, name => if k = name then rest else (k, v) :: eraseReg rest name

/-- `on(eventName, listener)` (index.mjs lines 61-71), also exposed as
the alias `addListener`: push onto the existing array if the key is
present, otherwise create a one-element array. -/
def addListener (r : Registry) (name : String) (l : Listener) : Registry :=
  match lookupReg r name with
  | some ls => setReg r name (ls ++ [l])
  | none => setReg r name [l]

/-- `off(eventName, listener)` (index.mjs lines 94-100): if the key is
present, replace the entry by a NEW array keeping every element that is
not reference-equal to the listener.  The key stays in the registry even
when the filtered array is empty, and the old array object is not
mutated. -/
def off (r : Registry) (name : String) (l : Listener) : Registry :=
  match lookupReg r name with
  | some ls => setReg r name (ls.filter (fun x => decide (x ≠ l)))
  | none => r

/-- `once(eventName, listener)` (index.mjs lines 80-87): registers a
fresh wrapper closure (identity `wid`) around the underlying function
`fnId`. -/
def once (r : Registry) (name : String) (fnId wid : Nat) : Registry :=
  addListener r name (.wrapper wid fnId)

/-- `removeAllListeners(event?)` (index.mjs lines 108-118): delete one
key, or reset the whole registry. -/
def removeAllListeners (r : Registry) : Option String → Registry
  | some name => eraseReg r name
  | none => []

/-- `listenerCount(eventName)` (index.mjs lines 142-147): the length of
the array when the key is present, `0` otherwise. -/
def listenerCount (r : Registry) (name : String) : Nat :=
  match lookupReg r name with
  | some ls => ls.length
  | none => 0

/-- The ordered sequence of listener entries currently registered for a
name: the content of the registry array, `[]` when the key is absent. -/
def entriesOf (r : Registry) (name : String) : List Listener :=
  (lookupReg r name).getD []

/-- Dynamic state of an emitter run: the registry, the ordered log of
invoked underlying-function ids, and the once-only guard flag used by
the harness `reemitter` listener. -/
structure EmState where
  reg : Registry
  log : List Nat
  gfired : Bool
deriving DecidableEq, Repr

/-- The dispatch loop of `emit` (index.mjs lines 126-136), one fuel unit
per step.  `frames` is the stack of in-progress `for...of` iterations,
innermost first; each frame is the remainder of the array object the
corresponding `emit` call read at entry.  `off` never mutates that
object (it installs a freshly filtered array), so an outer iteration
keeps walking its stale snapshot, exactly as in the source.  A `plain`
listener just logs its id; a `wrapper` first removes itself
(`removeListener`) and then calls the underlying function; a
`reemitter` logs its id and, the first time only, re-enters `emit` for
the same name, pushing the array it reads NOW as a new innermost frame
that runs to completion before the outer iteration resumes. -/
def emitAux : Nat → String → List (List Listener) → EmState → EmState
  | 0, _, _, s => s
  | _ + 1, _, [], s => s
  | fuel + 1, name, [] :: rest, s => emitAux fuel name rest s
  | fuel + 1, name, (l :: ls) :: rest, s =>
      match l with
      | .plain id =>
          emitAux fuel name (ls :: rest) { s with log := s.log ++ [id] }
      | .wrapper wid fnId =>
          let s1 : EmState := { s with reg := off s.reg name (.wrapper wid fnId) }
          emitAux fuel name (ls :: rest) { s1 with log := s1.log ++ [fnId] }
      | .reemitter id =>
          let s0 : EmState := { s with log := s.log ++ [id] }
          if s0.gfired then emitAux fuel name (ls :: rest) s0
          else
            let s1 : EmState := { s0 with gfired := true }
            match lookupReg s1.reg name with
            | none => emitAux fuel name (ls :: rest) s1
            | some snap => emitAux fuel name (snap :: ls :: rest) s1

/-- `emit(eventName, arg)` (index.mjs lines 126-136): when the name is a
key of the registry (even one holding an empty array) read the current
array, invoke its listeners in order and return `true`; otherwise return
`false` and invoke nothing. -/
def emit (fuel : Nat) (name : String) (s : EmState) : EmState × Bool :=
  match lookupReg s.reg name with
  | none => (s, false)
  | some snap => (emitAux fuel name [snap] s, true)

/-- One registration-interface call in a harness sequence. -/
inductive EOp where
  | callOn (name : String) (l : Listener)
  | callOnce (name : String) (fnId wid : Nat)
  | callOff (name : String) (l : Listener)
  | callRemoveAll (name : Option String)
deriving DecidableEq, Repr

/-- Apply one call to the registry. -/
def applyOp (r : Registry) : EOp → Registry
  | .callOn name l => addListener r name l
  | .callOnce name fnId wid => once r name fnId wid
  | .callOff name l => off r name l
  | .callRemoveAll name => removeAllListeners r name

/-- Run a finite sequence of `on`, `once`, `off` and
`removeAllListeners` calls starting from the freshly-constructed emitter
(`Object.create(null)`). -/
def runOps (ops : List EOp) : Registry :=
  ops.foldl applyOp []

variable {α : Type}

/-- A tagged event streamed from the privileged side, as consumed by the
`spawn` callback and, downstream, by `execute`.  The payload type is the
chunk type of the session (lines of text in text mode, byte arrays in
raw-encoding mode). -/
inductive ProcEvent (α : Type) where
  | stdout (c : α)
  | stderr (c : α)
  | error (msg : String)
  | terminated (code : Option Int) (signal : Option Int)
deriving DecidableEq, Repr

/-- Whether an event is a data chunk (routed to a stream emitter) rather
than a terminal `error` or `terminated` event. -/
def isDataEvent : ProcEvent α → Bool
  | .stdout _ => true
  | .stderr _ => true
  | _ => false

/-- Settlement of the promise built by `execute()` (index.mjs lines
338-359) after a finite event sequence: the first `error` event rejects
it, the first `terminated` event (routed to `close`) resolves it with
the chunk buffers pushed so far, later events cannot re-settle it, and
with no terminal event it is still pending (buffers shown for
reference). -/
inductive ExecOutcome (α : Type) where
  | resolved (code : Option Int) (signal : Option Int)
      (stdoutBuf stderrBuf : List α)
  | rejected (msg : String)
  | pending (stdoutBuf stderrBuf : List α)
deriving DecidableEq, Repr

/-- The event-processing loop of `execute()`: push stdout/stderr chunks
onto the buffers; settle on the first terminal event. -/
def executeRun : List (ProcEvent α) → List α → List α → ExecOutcome α
  | [], bo, be => .pending bo be
  | .stdout c :: rest, bo, be => executeRun rest (bo ++ [c]) be
  | .stderr c :: rest, bo, be => executeRun rest bo (be ++ [c])
  | .error m :: _, _, _ => .rejected m
  | .terminated code sig :: _, bo, be => .resolved code sig bo be

/-- `collectOutput` in raw-encoding mode (index.mjs lines 362-365): fold
appending each byte chunk and then a trailing line-feed byte (10). -/
def collectOutputRaw (events : List (List Nat)) : List Nat :=
  events.foldl (fun p c => p ++ c ++ [10]) []

/-- `collectOutput` in text mode (index.mjs line 368): join the chunks
with a single newline separator, `events.join` with separator backslash
n. -/
def collectOutputText (events : List String) : String :=
  String.intercalate "\n" events

/-- The value `execute()` resolves with (index.mjs lines 350-355). -/
structure CommandOutput (β : Type) where
  code : Option Int
  signal : Option Int
  stdout : β
  stderr : β
deriving DecidableEq, Repr

/-- Final settlement of the `execute()` promise, with aggregated
output. -/
inductive ExecResult (β : Type) where
  | success (o : CommandOutput β)
  | failure (msg : String)
  | pending
deriving DecidableEq, Repr

/-- `execute()` of a text-mode session as a function of the event
sequence delivered by the privileged side: run the buffering loop, then
aggregate each buffer with the text-mode `collectOutput`. -/
def executeText (events : List (ProcEvent String)) : ExecResult String :=
  match executeRun events [] [] with
  | .resolved c s bo be =>
      .success ⟨c, s, collectOutputText bo, collectOutputText be⟩
  | .rejected m => .failure m
  | .pending _ _ => .pending

/-- `execute()` of a raw-encoding session: same loop, raw-mode
`collectOutput`. -/
def executeRaw (events : List (ProcEvent (List Nat))) : ExecResult (List Nat) :=
  match executeRun events [] [] with
  | .resolved c s bo be =>
      .success ⟨c, s, collectOutputRaw bo, collectOutputRaw be⟩
  | .rejected m => .failure m
  | .pending _ _ => .pending

/-- Wire shape of a callback event, `\x7b event, payload \x7d`
(index.mjs line 308). -/
structure TaggedEvent (α : Type) where
  event : String
  payload : α
deriving DecidableEq, Repr

/-- An emitter invocation performed by the `spawn` callback: which
emitter it targets (`self` for the session itself, `stdout` / `stderr`
for the piped stream emitters), the event name emitted on it, and the
payload passed along. -/
structure Emission (α : Type) where
  target : String
  name : String
  payload : α
deriving DecidableEq, Repr

/-- The `switch (event.event)` of the `spawn` callback (index.mjs lines
307-321).  The switch has no default case: a tag other than the four
known ones falls through, the callback performs no action at all and
returns normally, which is `none` here. -/
def routeEvent (e : TaggedEvent α) : Option (Emission α) :=
  if e.event = "Error" then some ⟨"self", "error", e.payload⟩
  else if e.event = "Terminated" then some ⟨"self", "close", e.payload⟩
  else if e.event = "Stdout" then some ⟨"stdout", "data", e.payload⟩
  else if e.event = "Stderr" then some ⟨"stderr", "data", e.payload⟩
  else none

/-- `Child` (index.mjs lines 190-193): the handle owns only the process
id returned by the bridge. -/
structure Child where
  pid : Nat
deriving DecidableEq, Repr

/-- The continuation of `spawn()` (index.mjs line 322): the pid from the
bridge acknowledgment is wrapped in a `Child` handle. -/
def spawnResolve (pid : Nat) : Child := ⟨pid⟩

/-- The caller-side arguments array together with its `Object.freeze`
flag. -/
structure ArgsCell where
  value : List String
  frozen : Bool
deriving DecidableEq, Repr

/-- A mutation the caller may attempt on its array after the request was
issued. -/
inductive ArgMut where
  | setIdx (i : Nat) (v : String)
  | push (v : String)
deriving DecidableEq, Repr

/-- Attempted mutation of the array: on a frozen array it has no effect
(strict-mode JS rejects writes to frozen objects). -/
def applyMut (c : ArgsCell) (m : ArgMut) : ArgsCell :=
  if c.frozen then c
  else
    match m with
    | .setIdx i v => { c with value := c.value.set i v }
    | .push v => { c with value := c.value ++ [v] }

/-- The internal `execute` helper (index.mjs lines 14-24): an array
always satisfies the `typeof args` test, so `Object.freeze(args)` runs
before the request is sent, and the payload handed to `invoke` reads the
array at send time.  Returns the sent argument sequence and the caller
array afterwards. -/
def executeSend (c : ArgsCell) : List String × ArgsCell :=
  let c1 : ArgsCell := { c with frozen := true }
  (c1.value, c1)

/-! ## Helper lemmas -/

theorem lookupReg_setReg_self (r : Registry) (name : String)
    (ls : List Listener) : lookupReg (setReg r name ls) name = some ls := by
  induction r with
  | nil => simp [setReg, lookupReg]
  | cons kv rest ih =>
      obtain ⟨k, v⟩ := kv
      by_cases h : k = name
      · subst h
        simp [setReg, lookupReg]
      · simp [setReg, lookupReg, h, ih]

theorem listenerCount_eq_length (r : Registry) (name : String) :
    listenerCount r name = (entriesOf r name).length := by
  cases h : lookupReg r name <;> simp [listenerCount, entriesOf, h]

theorem listenerCount_addListener (r : Registry) (name : String)
    (l : Listener) :
    listenerCount (addListener r name l) name = listenerCount r name + 1 := by
  unfold addListener
  cases h : lookupReg r name with
  | none => simp [listenerCount, lookupReg_setReg_self, h]
  | some ls => simp [listenerCount, lookupReg_setReg_self, h]

theorem emitAux_nil_frames (fuel : Nat) (name : String) (s : EmState) :
    emitAux fuel name [] s = s := by
  cases fuel <;> simp [emitAux]

theorem entriesOf_off (r : Registry) (name : String) (l : Listener) :
    entriesOf (off r name l) name
      = (entriesOf r name).filter (fun x => decide (x ≠ l)) := by
  unfold off
  cases h : lookupReg r name with
  | none => simp [entriesOf, h]
  | some ls => simp [entriesOf, h, lookupReg_setReg_self]

/-! ## Claim theorems -/

/-- C1 (refuting evaluation): after `on` and then `off` of the same
listener, no listener is registered for the name (`listenerCount` is 0),
yet `emit` returns `true` while invoking nothing — `off` leaves the
emptied array keyed in the registry, so the membership test in `emit`
still passes.  The claim, and the doc comment of `emit` itself, require
`false` whenever no listener is currently registered. -/
theorem emit_after_off_returns_true_with_no_listeners :
    listenerCount (off (addListener [] "x" (.plain 0)) "x" (.plain 0)) "x" = 0
    ∧ emit 5 "x" ⟨off (addListener [] "x" (.plain 0)) "x" (.plain 0), [], false⟩
        = (⟨[("x", [])], [], false⟩, true) := by
  decide

/-- C2 (refuting evaluation): register a guarded re-emitting listener
(function id 0) and then a `once` listener whose underlying function has
id 1, and emit once.  The first listener synchronously re-enters `emit`;
the inner emit invokes the once wrapper, which removes itself and calls
function 1; but the outer emit is still iterating the stale pre-`off`
array object (`off` replaced the registry entry with a fresh filtered
array) and therefore invokes the wrapper a second time, calling function
1 again.  The invocation log shows function 1 running twice, refuting
the at-most-once guarantee. -/
theorem once_listener_invoked_twice_under_reentrant_emit :
    ((emit 20 "data"
        ⟨runOps [.callOn "data" (.reemitter 0), .callOnce "data" 1 100],
          [], false⟩).1.log = [0, 0, 1, 1])
    ∧ ((emit 20 "data"
        ⟨runOps [.callOn "data" (.reemitter 0), .callOnce "data" 1 100],
          [], false⟩).1.log.count 1 = 2) := by
  decide

/-- C8: across every finite sequence of registration calls,
`listenerCount` reports exactly the number of currently-registered
listener entries; repeated `on` with the same function adds, and counts,
duplicate entries; and `off` removes every entry equal to the given
listener (value equality, not just the first match), leaving the
others. -/
theorem listenerCount_matches_entries_and_off_removes_all :
    (∀ (ops : List EOp) (name : String),
        listenerCount (runOps ops) name = (entriesOf (runOps ops) name).length)
    ∧ (∀ (r : Registry) (name : String) (l : Listener),
        listenerCount (addListener (addListener r name l) name l) name
          = listenerCount r name + 2)
    ∧ (∀ (r : Registry) (name : String) (l : Listener),
        entriesOf (off r name l) name
            = (entriesOf r name).filter (fun x => decide (x ≠ l))
          ∧ l ∉ entriesOf (off r name l) name) := by
  refine ⟨fun ops name => listenerCount_eq_length _ _,
    fun r name l => ?_, fun r name l => ⟨entriesOf_off r name l, ?_⟩⟩
  · rw [listenerCount_addListener, listenerCount_addListener]
  · rw [entriesOf_off]
    simp

/-- C10: calling `off(name, fn)` after `once(name, fn)` does not
deregister the once-registered listener, because the registry stores a
fresh wrapper closure rather than `fn` itself: `listenerCount` is
unchanged by the `off` call, and a subsequent `emit` still invokes `fn`
exactly once (the wrapper removes itself before delegating) and returns
`true`. -/
theorem off_does_not_remove_once_wrapper (name : String) (id wid fuel : Nat) :
    listenerCount (off (once [] name id wid) name (.plain id)) name
        = listenerCount (once [] name id wid) name
    ∧ (emit (fuel + 2) name
        ⟨off (once [] name id wid) name (.plain id), [], false⟩).1.log = [id]
    ∧ (emit (fuel + 2) name
        ⟨off (once [] name id wid) name (.plain id), [], false⟩).2 = true := by
  have h1 : once [] name id wid = [(name, [Listener.wrapper wid id])] := by
    simp [once, addListener, lookupReg, setReg]
  have h2 : off (once [] name id wid) name (.plain id)
      = [(name, [Listener.wrapper wid id])] := by
    rw [h1]
    simp [off, lookupReg, setReg, List.filter]
  have h3 : off [(name, [Listener.wrapper wid id])] name
      (.wrapper wid id) = [(name, [])] := by
    simp [off, lookupReg, setReg, List.filter]
  refine ⟨?_, ?_, ?_⟩
  · rw [h2, h1]
  · rw [h2]
    simp [emit, lookupReg, emitAux, h3, emitAux_nil_frames]
  · rw [h2]
    simp [emit, lookupReg]

theorem executeRun_stdout_append (cs : List α) (rest : List (ProcEvent α))
    (bo be : List α) :
    executeRun (cs.map ProcEvent.stdout ++ rest) bo be
      = executeRun rest (bo ++ cs) be := by
  induction cs generalizing bo with
  | nil => simp
  | cons c cs ih => simp [executeRun, ih]

theorem intercalate_nil_newline :
    String.intercalate "\n" ([] : List String) = "" := rfl

theorem collectOutputRaw_eq_flatten (cs : List (List Nat)) (p : List Nat) :
    cs.foldl (fun p c => p ++ c ++ [10]) p
      = p ++ (cs.map (fun c => c ++ [10])).flatten := by
  induction cs generalizing p with
  | nil => simp
  | cons c cs ih =>
      rw [List.foldl_cons, ih]
      simp [List.append_assoc]

theorem executeRun_error_first (pre : List (ProcEvent α)) (m : String)
    (rest : List (ProcEvent α)) (bo be : List α)
    (h : ∀ e ∈ pre, isDataEvent e = true) :
    executeRun (pre ++ ProcEvent.error m :: rest) bo be
      = ExecOutcome.rejected m := by
  induction pre generalizing bo be with
  | nil => simp [executeRun]
  | cons e pre ih =>
      have hpre : ∀ x ∈ pre, isDataEvent x = true :=
        fun x hx => h x (List.mem_cons_of_mem _ hx)
      cases e with
      | stdout c => simpa [executeRun] using ih (bo ++ [c]) be hpre
      | stderr c => simpa [executeRun] using ih bo (be ++ [c]) hpre
      | error msg => simpa [isDataEvent] using h _ (List.mem_cons_self _ _)
      | terminated cd sg => simpa [isDataEvent] using h _ (List.mem_cons_self _ _)

/-- C3: in a text-mode session, for every finite sequence of stdout
chunks followed by a `Terminated` event, `execute()` resolves with
stdout equal to the chunks joined by single newlines with no trailing
separator (and stderr from its own, here empty, buffer); in particular
chunks `a`, `b` with exit code 0 and no signal resolve to code 0, no
signal, stdout `a` newline `b`, empty stderr. -/
theorem execute_text_mode_joins_chunks_with_newline :
    (∀ (cs : List String) (code sig : Option Int),
        executeText (cs.map ProcEvent.stdout ++ [ProcEvent.terminated code sig])
          = ExecResult.success ⟨code, sig, String.intercalate "\n" cs, ""⟩)
    ∧ executeText [ProcEvent.stdout "a", ProcEvent.stdout "b",
          ProcEvent.terminated (some 0) none]
        = ExecResult.success ⟨some 0, none, "a\nb", ""⟩ := by
  constructor
  · intro cs code sig
    simp [executeText, executeRun_stdout_append, executeRun, collectOutputText,
      intercalate_nil_newline]
  · decide

/-- C4: in a raw-encoding session, for every finite sequence of
byte-array stdout chunks followed by a `Terminated` event, aggregated
stdout is the concatenation of the chunks with a line-feed byte (10)
appended after each chunk; in particular chunks `[1,2]` and `[3]`
aggregate to `[1,2,10,3,10]`. -/
theorem execute_raw_mode_appends_lf_after_each_chunk :
    (∀ (cs : List (List Nat)) (code sig : Option Int),
        executeRaw (cs.map ProcEvent.stdout ++ [ProcEvent.terminated code sig])
          = ExecResult.success
              ⟨code, sig, (cs.map (fun c => c ++ [10])).flatten, []⟩)
    ∧ collectOutputRaw [[1, 2], [3]] = [1, 2, 10, 3, 10] := by
  constructor
  · intro cs code sig
    have hagg : collectOutputRaw cs = (cs.map (fun c => c ++ [10])).flatten := by
      rw [collectOutputRaw, collectOutputRaw_eq_flatten, List.nil_append]
    simp only [executeRaw, executeRun_stdout_append, List.nil_append,
      executeRun, hagg]
    rfl
  · decide

/-- C5: when an `Error` event arrives after only data chunks and before
any `Terminated` event, the `execute()` promise rejects with that error
payload, whatever events follow, and it has no resolved value — so the
chunks buffered so far appear in no resolved value. -/
theorem execute_rejects_on_error_before_terminated
    (pre : List (ProcEvent String)) (m : String)
    (rest : List (ProcEvent String))
    (h : ∀ e ∈ pre, isDataEvent e = true) :
    executeText (pre ++ ProcEvent.error m :: rest) = ExecResult.failure m
    ∧ ∀ o : CommandOutput String,
        executeText (pre ++ ProcEvent.error m :: rest)
          ≠ ExecResult.success o := by
  have hrun := executeRun_error_first pre m rest [] [] h
  constructor
  · simp [executeText, hrun]
  · intro o
    simp [executeText, hrun]

/-- C5 witness: a stdout chunk, then an error, then a terminated event
that can no longer matter: `execute()` rejects with the error payload. -/
theorem execute_rejects_on_error_before_terminated_witness :
    executeText ([ProcEvent.stdout "x"] ++ ProcEvent.error "boom"
        :: [ProcEvent.terminated (some 0) none])
      = ExecResult.failure "boom" :=
  (execute_rejects_on_error_before_terminated [ProcEvent.stdout "x"] "boom"
    [ProcEvent.terminated (some 0) none]
    (by intro e he; rw [List.mem_singleton] at he; subst he; rfl)).1

/-- C6 (counterexample): delivering an event whose tag is the
unrecognized `Bogus` to the registered callback produces no action at
all — the switch has no default case, so nothing is emitted, no error of
any kind is raised, and the callback returns normally.  The defect is
silently swallowed, contradicting the claim that it surfaces loudly as a
protocol error. -/
theorem routeEvent_bogus_tag_silently_ignored :
    routeEvent (TaggedEvent.mk "Bogus" "x") = none := by
  decide

/-- C6 (amended): an event whose tag is none of the four recognized ones
is silently ignored by the registered callback: no emission is performed
and no error is raised. -/
theorem routeEvent_unrecognized_tag_no_emission (t : String) (p : α)
    (h1 : t ≠ "Error") (h2 : t ≠ "Terminated") (h3 : t ≠ "Stdout")
    (h4 : t ≠ "Stderr") :
    routeEvent (TaggedEvent.mk t p) = none := by
  simp [routeEvent, h1, h2, h3, h4]

/-- C6 witness: the amended statement at the concrete tag `Bogus` with a
numeric payload. -/
theorem routeEvent_unrecognized_tag_no_emission_witness :
    routeEvent (TaggedEvent.mk "Bogus" (0 : Nat)) = none :=
  routeEvent_unrecognized_tag_no_emission "Bogus" 0 (by decide) (by decide)
    (by decide) (by decide)

theorem applyMut_frozen (c : ArgsCell) (m : ArgMut) (h : c.frozen = true) :
    applyMut c m = c := by
  simp [applyMut, h]

theorem foldl_applyMut_frozen (ms : List ArgMut) (c : ArgsCell)
    (h : c.frozen = true) : ms.foldl applyMut c = c := by
  induction ms with
  | nil => rfl
  | cons m ms ih => rw [List.foldl_cons, applyMut_frozen c m h]; exact ih

/-- C7: the arguments array is frozen before the spawn request is sent,
so no sequence of later mutation attempts on the caller array changes
it: after any such sequence the array still equals the argument sequence
that was sent through the bridge. -/
theorem spawn_args_frozen_at_send_time (c : ArgsCell) (ms : List ArgMut) :
    (ms.foldl applyMut (executeSend c).2).value = (executeSend c).1 := by
  rw [foldl_applyMut_frozen ms (executeSend c).2 rfl]
  rfl

/-- C9: `spawn()` wraps the acknowledged pid in a `Child` handle exposing
exactly that pid, and the registered callback routes every recognized
tagged event with its payload: `Stdout` to the stdout emitter `data`
event, `Stderr` to the stderr emitter `data` event, `Error` to the
session `error` event, and `Terminated` to the session `close` event. -/
theorem spawn_resolves_pid_and_routes_events :
    (∀ pid : Nat, (spawnResolve pid).pid = pid)
    ∧ (∀ (β : Type) (p : β),
        routeEvent (TaggedEvent.mk "Stdout" p)
            = some ⟨"stdout", "data", p⟩
        ∧ routeEvent (TaggedEvent.mk "Stderr" p)
            = some ⟨"stderr", "data", p⟩
        ∧ routeEvent (TaggedEvent.mk "Error" p)
            = some ⟨"self", "error", p⟩
        ∧ routeEvent (TaggedEvent.mk "Terminated" p)
            = some ⟨"self", "close", p⟩) := by
  refine ⟨fun pid => rfl, fun β p => ⟨?_, ?_, ?_, ?_⟩⟩ <;> simp [routeEvent]

end ShellPlugin
